import Mathlib

/-!
Shallow embedding of the `College_found_items` match-notification feature.

The repository contains two near-duplicate Deno edge functions:

* variant A — `supabase/functions/notify-lost-on-found/index.ts`: the found
  item arrives inline in the request payload;
* variant B — the `notify-matches` function (unnamed source part): the found
  item is fetched by identifier from the item store.

Both query lost/active items of the found item's category, resolve one email
per candidate (stored contact string first, account lookup as fallback),
deduplicate, and dispatch one delivery request per recipient through the
Resend HTTP API.  External collaborators (item store, auth admin lookup,
email provider) are modelled as oracles inside an environment record; the
handlers themselves are translated branch by branch from the source.
-/

namespace NotifyLostOnFound

/-- The JavaScript `\s` character class (ECMA-262 WhiteSpace plus line
terminators), used by both `String.prototype.trim` and the email regex's
`[^\s@]` classes. -/
def isJsWs (c : Char) : Bool :=
  c.toNat == 9 || c.toNat == 10 || c.toNat == 11 || c.toNat == 12 ||
  c.toNat == 13 || c.toNat == 32 || c.toNat == 0xa0 || c.toNat == 0x1680 ||
  (0x2000 ≤ c.toNat && c.toNat ≤ 0x200a) ||
  c.toNat == 0x2028 || c.toNat == 0x2029 || c.toNat == 0x202f ||
  c.toNat == 0x205f || c.toNat == 0x3000 || c.toNat == 0xfeff

/-- JavaScript `String.prototype.trim`: strip leading and trailing
whitespace. -/
def jsTrim (s : String) : String :=
  ⟨((s.data.dropWhile isJsWs).reverse.dropWhile isJsWs).reverse⟩

/-- A character admitted by the regex class `[^\s@]`. -/
def validChar (c : Char) : Bool :=
  !isJsWs c && !(c == '@')

/-- Full-string match of the regex `^[^\s@]+@[^\s@]+\.[^\s@]+$` from
variant A's `isEmail`.  Since both character classes exclude `@`, a match
forces exactly one `@`; the part after it must consist of `[^\s@]` characters
and contain a `.` that is neither its first nor its last character. -/
def emailShape (s : String) : Bool :=
  let cs := s.data
  let l := cs.takeWhile (fun c => !(c == '@'))
  let r := cs.drop (l.length + 1)
  cs.contains '@' && !l.isEmpty && l.all validChar &&
    r.all validChar && !(r.contains '@') && ((r.drop 1).dropLast.contains '.')

/-- Variant A's `isEmail(value)`: falsy values are rejected, otherwise the
regex is tested against `value.trim()`. -/
def isEmail : Option String → Bool
  | none => false
  | some v => !(v == "") && emailShape (jsTrim v)

/-- Variant B's direct-use test on a candidate's stored contact:
`contact && contact.includes("@")`. -/
def contactUsedDirectly : Option String → Bool
  | none => false
  | some c => !(c == "") && c.data.contains '@'

/-- Whether a stored contact string contains an `@` at all (the axis on
which the two variants' predicates can disagree). -/
def hasAt : Option String → Bool
  | none => false
  | some c => c.data.contains '@'

example : emailShape "a@b.com" = true := by decide
example : emailShape "a@b" = false := by decide
example : emailShape "a@.c" = false := by decide
example : emailShape "a b@c.d" = false := by decide
example : emailShape "a@b@c.d" = false := by decide
example : isEmail (some "  a@b.com  ") = true := by decide
example : isEmail (some "") = false := by decide
example : contactUsedDirectly (some "a@b") = true := by decide
example : contactUsedDirectly (some "") = false := by decide

/-- A row of the `items` table (columns referenced by either variant). -/
structure ItemRow where
  id : String
  type : String
  status : String
  category : String
  title : String
  description : Option String
  location : Option String
  contact_info : Option String
  user_id : String
  deriving DecidableEq, Repr

/-- Projection selected by both lost-item queries:
`select("id, title, contact_info, user_id")`. -/
structure LostItemRow where
  id : String
  title : String
  contact_info : Option String
  user_id : String
  deriving DecidableEq, Repr

def toLostItemRow (r : ItemRow) : LostItemRow :=
  ⟨r.id, r.title, r.contact_info, r.user_id⟩

/-- Variant A's inline `foundItem` payload. -/
structure FoundItemPayload where
  id : String
  user_id : String
  category : String
  title : String
  description : Option String
  location : Option String
  deriving DecidableEq, Repr

/-- Outcome of `supabase.auth.admin.getUserById`: resolved with an email,
resolved without one, resolved with an error result (`data` null), or a
rejected promise. -/
inductive GetUserResult where
  | found (email : String)
  | noEmail
  | errResult
  | thrownErr
  deriving DecidableEq, Repr

/-- Outcome of one `fetch` to the Resend API: 2xx, non-2xx with response
text, or a rejected promise (transport error). -/
inductive SendOutcome where
  | ok
  | httpErr (detail : String)
  | thrownErr (msg : String)
  deriving DecidableEq, Repr

/-- `Set.add` on a JS `Set<string>` materialised as an insertion-ordered
duplicate-free list. -/
def insertUniq (l : List String) (x : String) : List String :=
  if x ∈ l then l else l ++ [x]

/-! ### Variant A recipient resolution

Variant A runs two phases over the queried rows: the first loop fills
`recipients : Set<string>` from email-shaped contact strings and collects the
remaining owners in `missingEmailUserIds : Set<string>`; the second loop
resolves those owners through `auth.admin.getUserById`, ignoring failures. -/

/-- One iteration of variant A's first loop: skip rows owned by the finder,
add `contact_info.trim()` when `isEmail` accepts it, otherwise record the
owner id for the lookup phase.  The accumulator is
`(recipients, missingEmailUserIds)`. -/
def stepA (fuid : String) (acc : List String × List String) (r : LostItemRow) :
    List String × List String :=
  if r.user_id == fuid then acc
  else if isEmail r.contact_info then
    (insertUniq acc.1 (jsTrim (r.contact_info.getD "")), acc.2)
  else (acc.1, insertUniq acc.2 r.user_id)

/-- Variant A's first loop over the lost-item rows. -/
def phase1A (fuid : String) (acc : List String × List String) :
    List LostItemRow → List String × List String
  | [] => acc
  | r :: rs => phase1A fuid (stepA fuid acc r) rs

/-- Variant A's second loop: one `getUserById` per collected owner id;
only a resolved email is added, every other outcome (no email, error result,
thrown) contributes nothing. -/
def phase2A (lk : String → GetUserResult) (rec : List String) :
    List String → List String
  | [] => rec
  | u :: us =>
    match lk u with
    | .found e => phase2A lk (insertUniq rec e) us
    | _ => phase2A lk rec us

/-- Variant A's full resolution: `(recipients, owner ids looked up)`. -/
def resolveA (lk : String → GetUserResult) (fuid : String)
    (rows : List LostItemRow) : List String × List String :=
  let pm := phase1A fuid ([], []) rows
  (phase2A lk pm.1 pm.2, pm.2)

/-- The `toList = Array.from(recipients)` of variant A. -/
def resolveRecipientsA (lk : String → GetUserResult) (fuid : String)
    (rows : List LostItemRow) : List String :=
  (resolveA lk fuid rows).1

/-! ### Variant B recipient resolution

Variant B resolves in a single pass: a truthy contact containing `@` is used
directly; otherwise, when the owner id is truthy, `getUserById` is consulted
inline, with error results and thrown errors logged and skipped. -/

/-- One iteration of variant B's loop.  The accumulator is
`(toEmailsSet, owner ids looked up)`. -/
def stepB (lk : String → GetUserResult) (acc : List String × List String)
    (r : LostItemRow) : List String × List String :=
  if contactUsedDirectly r.contact_info then
    (insertUniq acc.1 (jsTrim (r.contact_info.getD "")), acc.2)
  else if r.user_id == "" then acc
  else
    match lk r.user_id with
    | .found e => (insertUniq acc.1 e, acc.2 ++ [r.user_id])
    | _ => (acc.1, acc.2 ++ [r.user_id])

/-- Variant B's loop over the lost-item rows. -/
def resolveBAux (lk : String → GetUserResult) (acc : List String × List String) :
    List LostItemRow → List String × List String
  | [] => acc
  | r :: rs => resolveBAux lk (stepB lk acc r) rs

/-- The `toEmails = Array.from(toEmailsSet.values())` of variant B. -/
def resolveRecipientsB (lk : String → GetUserResult)
    (rows : List LostItemRow) : List String :=
  (resolveBAux lk ([], []) rows).1

/-! ### Item-store queries -/

/-- Variant A's lost-item query:
`eq("type","lost") . eq("status","active") . eq("category", found.category)`.
The owner exclusion happens later, inside the loop. -/
def lostQueryA (db : List ItemRow) (cat : String) : List LostItemRow :=
  (db.filter fun r =>
    r.type == "lost" && r.status == "active" && r.category == cat).map
    toLostItemRow

/-- Variant B's lost-item query: same three filters plus
`neq("user_id", foundItem.user_id)` — but the `neq` is only attached when the
found item's `user_id` is truthy. -/
def lostQueryB (db : List ItemRow) (cat : String) (fuid : String) :
    List LostItemRow :=
  (db.filter fun r =>
    r.type == "lost" && r.status == "active" && r.category == cat &&
      (if fuid == "" then true else !(r.user_id == fuid))).map
    toLostItemRow

/-- Variant B's found-item fetch: `eq("id", foundItemId).single()`, which
errors unless exactly one row matches. -/
def fetchSingle (db : List ItemRow) (fid : String) : Option ItemRow :=
  match db.filter (fun r => r.id == fid) with
  | [r] => some r
  | _ => none

/-! ### Email dispatch -/

/-- Variant A's `composeEmail` subject line (the HTML body is passed only to
the delivery provider, which is abstracted by the send oracle). -/
def composeEmailSubject (found : FoundItemPayload) : String :=
  "New found item in " ++ found.category ++ " may match your lost item"

def isOkSend : SendOutcome → Bool
  | .ok => true
  | _ => false

def isThrownSend : SendOutcome → Bool
  | .thrownErr _ => true
  | _ => false

/-- The `{ to, ok, detail }` record variant A's dispatch closure settles to,
or `none` when the underlying `fetch` promise rejects. -/
def sendResultA (send : String → SendOutcome) (toAddr : String) :
    Option (String × Bool × Option String) :=
  match send toAddr with
  | .ok => some (toAddr, true, none)
  | .httpErr d => some (toAddr, false, some d)
  | .thrownErr _ => none

/-- Variant A's `Promise.all` over the per-recipient fetches: every dispatch
is started, but a single rejected promise rejects the aggregate, losing all
per-recipient results. -/
def dispatchA (send : String → SendOutcome) (toList : List String) :
    Option (List (String × Bool × Option String)) :=
  toList.mapM (sendResultA send)

/-- Variant B's sequential send loop with per-recipient `try`/`catch`: the
accumulator is `(sent, failures)`; a non-2xx response records the response
text, a thrown transport error records the message. -/
def dispatchB (send : String → SendOutcome) (acc : Nat × List (String × String)) :
    List String → Nat × List (String × String)
  | [] => acc
  | toAddr :: rest =>
    match send toAddr with
    | .ok => dispatchB send (acc.1 + 1, acc.2) rest
    | .httpErr d => dispatchB send (acc.1, acc.2 ++ [(toAddr, d)]) rest
    | .thrownErr m => dispatchB send (acc.1, acc.2 ++ [(toAddr, m)]) rest

/-! ### Requests, responses, environment -/

/-- The JSON bodies the two handlers can answer with. -/
inductive RespBody where
  /-- A plain-text body (`"ok"`, `"Method Not Allowed"`). -/
  | text (s : String)
  /-- `{ error }` -/
  | errorMsg (error : String)
  /-- `{ error, details }` -/
  | errorDetails (error : String) (details : String)
  /-- Variant A's `{ message: "No recipients to notify", recipients: [] }`. -/
  | noRecipients (recipients : List String)
  /-- Variant A's `{ message: "Email provider not configured…", wouldNotify, subject }`. -/
  | notConfigured (wouldNotify : List String) (subject : String)
  /-- Variant A's `{ successes, failures }` (each failure as `(to, detail)`). -/
  | summaryA (successes : List String) (failures : List (String × Option String))
  /-- The runtime's own 500 page for an unhandled rejection inside the handler. -/
  | internalError
  /-- Variant B's `{ category, recipients, sent, failures }`. -/
  | summaryB (category : String) (recipients : Nat) (sent : Nat)
      (failures : List (String × String))
  deriving DecidableEq, Repr

structure HttpResponse where
  status : Nat
  body : RespBody
  deriving DecidableEq, Repr

/-- A handler run: the response, the recipients a delivery request was
dispatched to, and the owner ids `getUserById` was called for. -/
structure HandlerResult where
  response : HttpResponse
  dispatched : List String
  lookups : List String
  deriving DecidableEq, Repr

/-- Variant A's request body after `req.json()`. -/
inductive BodyA where
  | invalidJson
  | parsed (foundItem : Option FoundItemPayload)
  deriving DecidableEq, Repr

structure RequestA where
  method : String
  body : BodyA
  deriving DecidableEq, Repr

/-- Variant B's request: `req.json().catch(() => ({}))` collapses a parse
failure into a body without `foundItemId`. -/
structure RequestB where
  method : String
  foundItemId : Option String
  deriving DecidableEq, Repr

/-- Environment-style configuration plus the three external collaborators as
oracles: the `items` table, the auth admin lookup, and the email provider. -/
structure Env where
  SUPABASE_URL : Option String
  SUPABASE_SERVICE_ROLE_KEY : Option String
  RESEND_API_KEY : Option String
  FROM_EMAIL : Option String
  RESEND_FROM : Option String
  db : List ItemRow
  /-- `error` of the lost-items query, when that query fails. -/
  lostErr : Option String
  getUserById : String → GetUserResult
  send : String → SendOutcome

/-- JS truthiness of an environment string (`undefined` and `""` are falsy). -/
def truthy : Option String → Bool
  | none => false
  | some s => !(s == "")

/-! ### The two handlers -/

/-- Variant A, `supabase/functions/notify-lost-on-found/index.ts`, translated
branch by branch.  A rejected dispatch promise propagates out of the handler,
so the serving runtime answers 500 with no per-recipient summary. -/
def handlerA (env : Env) (req : RequestA) : HandlerResult :=
  if req.method == "OPTIONS" then ⟨⟨200, .text "ok"⟩, [], []⟩
  else if !(req.method == "POST") then
    ⟨⟨405, .text "Method Not Allowed"⟩, [], []⟩
  else
    match req.body with
    | .invalidJson => ⟨⟨400, .errorMsg "Invalid JSON body"⟩, [], []⟩
    | .parsed none =>
      ⟨⟨400, .errorMsg "Missing required foundItem payload"⟩, [], []⟩
    | .parsed (some found) =>
      if found.category == "" || found.user_id == "" then
        ⟨⟨400, .errorMsg "Missing required foundItem payload"⟩, [], []⟩
      else if !(truthy env.SUPABASE_URL && truthy env.SUPABASE_SERVICE_ROLE_KEY) then
        ⟨⟨500, .errorMsg "Server missing Supabase configuration"⟩, [], []⟩
      else
        match env.lostErr with
        | some m => ⟨⟨500, .errorDetails "Failed querying lost items" m⟩, [], []⟩
        | none =>
          let pm := resolveA env.getUserById found.user_id
            (lostQueryA env.db found.category)
          let toList := pm.1
          if toList == [] then
            ⟨⟨200, .noRecipients []⟩, [], pm.2⟩
          else if !(truthy env.RESEND_API_KEY) then
            ⟨⟨200, .notConfigured toList (composeEmailSubject found)⟩, [], pm.2⟩
          else
            match dispatchA env.send toList with
            | none => ⟨⟨500, .internalError⟩, toList, pm.2⟩
            | some results =>
              ⟨⟨200, .summaryA
                  ((results.filter fun r => r.2.1).map fun r => r.1)
                  ((results.filter fun r => !r.2.1).map fun r => (r.1, r.2.2))⟩,
               toList, pm.2⟩

/-- Variant B, the `notify-matches` function, translated branch by branch.
Note the order of its guards: method, Supabase config, `RESEND_API_KEY`
(missing ⇒ 500), body, found-item fetch, lost query, resolution, dispatch. -/
def handlerB (env : Env) (req : RequestB) : HandlerResult :=
  if req.method == "OPTIONS" then ⟨⟨200, .text "ok"⟩, [], []⟩
  else if !(req.method == "POST") then
    ⟨⟨405, .errorMsg "Method not allowed"⟩, [], []⟩
  else if !(truthy env.SUPABASE_URL && truthy env.SUPABASE_SERVICE_ROLE_KEY) then
    ⟨⟨500, .errorMsg "Missing Supabase environment config"⟩, [], []⟩
  else if !(truthy env.RESEND_API_KEY) then
    ⟨⟨500, .errorMsg "Missing RESEND_API_KEY secret"⟩, [], []⟩
  else
    match req.foundItemId with
    | none => ⟨⟨400, .errorMsg "foundItemId is required"⟩, [], []⟩
    | some fid =>
      if fid == "" then ⟨⟨400, .errorMsg "foundItemId is required"⟩, [], []⟩
      else
        match fetchSingle env.db fid with
        | none =>
          -- `.single()` errored; the catch block reports the thrown message.
          ⟨⟨500, .errorMsg "found item fetch failed"⟩, [], []⟩
        | some foundItem =>
          match env.lostErr with
          | some m => ⟨⟨500, .errorMsg m⟩, [], []⟩
          | none =>
            let rl := resolveBAux env.getUserById ([], [])
              (lostQueryB env.db foundItem.category foundItem.user_id)
            let toEmails := rl.1
            let d := dispatchB env.send (0, []) toEmails
            ⟨⟨200, .summaryB foundItem.category toEmails.length d.1 d.2⟩,
             toEmails, rl.2⟩

/-- Collapse the two failure outcomes of an account lookup into the benign
no-email outcome; both handlers treat all three identically. -/
def defuse : GetUserResult → GetUserResult
  | .errResult => .noEmail
  | .thrownErr => .noEmail
  | o => o

/-! ### Concrete fixtures

The scenario from the specification: found item
`{category:"Electronics", title:"iPhone 13", reporter u1}`, lost candidates
owned by `u2` (contact `a@b.com`) and `u3` (no contact), where `u3`'s account
lookup returns `c@d.com`. -/

def foundRow9 : ItemRow :=
  ⟨"f1", "found", "active", "Electronics", "iPhone 13", none, none, none, "u1"⟩

def lostRow9a : ItemRow :=
  ⟨"l2", "lost", "active", "Electronics", "Lost phone", none, none,
   some "a@b.com", "u2"⟩

def lostRow9b : ItemRow :=
  ⟨"l3", "lost", "active", "Electronics", "Lost charger", none, none,
   none, "u3"⟩

def db9 : List ItemRow := [foundRow9, lostRow9a, lostRow9b]

def lk9 : String → GetUserResult := fun u =>
  if u == "u3" then .found "c@d.com" else .errResult

def found9 : FoundItemPayload :=
  ⟨"f1", "u1", "Electronics", "iPhone 13", none, none⟩

def env9 : Env :=
  { SUPABASE_URL := some "https://example.supabase.co"
    SUPABASE_SERVICE_ROLE_KEY := some "service-role-key"
    RESEND_API_KEY := some "re_key"
    FROM_EMAIL := none
    RESEND_FROM := none
    db := db9
    lostErr := none
    getUserById := lk9
    send := fun _ => .ok }

def reqA9 : RequestA := ⟨"POST", .parsed (some found9)⟩

def reqB9 : RequestB := ⟨"POST", some "f1"⟩

/-- The same environment with no email-provider credential configured. -/
def envNoResend : Env := { env9 with RESEND_API_KEY := none }

/-- The same environment with a delivery oracle whose second recipient's
`fetch` rejects with a transport error. -/
def envThrow : Env :=
  { env9 with send := fun toAddr =>
      if toAddr == "c@d.com" then .thrownErr "network error" else .ok }

/-- The same environment with no lost-item candidates at all. -/
def envEmpty : Env := { env9 with db := [foundRow9] }

/-- An account-lookup oracle that always fails with an error result. -/
def lkNone : String → GetUserResult := fun _ => .errResult

/-- A lost-item row whose stored contact contains `@` but fails the strict
email shape (no dot after the `@`). -/
def rowAtOnly : LostItemRow := ⟨"l9", "Lost wallet", some "a@b", "u9"⟩

/-! ### Basic lemmas -/

theorem mem_insertUniq {l : List String} {x a : String} :
    a ∈ insertUniq l x ↔ a ∈ l ∨ a = x := by
  unfold insertUniq
  split
  · rename_i hx
    constructor
    · exact Or.inl
    · rintro (h | rfl)
      · exact h
      · exact hx
  · simp

theorem nodup_insertUniq {l : List String} {x : String} (h : l.Nodup) :
    (insertUniq l x).Nodup := by
  unfold insertUniq
  split
  · exact h
  · rename_i hx
    simp [List.nodup_append, h, hx]

theorem mem_of_mem_jsTrim {c : Char} {s : String} (h : c ∈ (jsTrim s).data) :
    c ∈ s.data := by
  unfold jsTrim at h
  simp only [List.mem_reverse] at h
  have h2 : c ∈ (s.data.dropWhile isJsWs).reverse :=
    (List.dropWhile_sublist isJsWs).mem h
  rw [List.mem_reverse] at h2
  exact (List.dropWhile_sublist isJsWs).mem h2

theorem emailShape_hasAt {s : String} (h : emailShape s = true) :
    '@' ∈ s.data := by
  unfold emailShape at h
  simp only [Bool.and_eq_true] at h
  have := h.1.1.1.1.1
  simpa using this

/-- An email-shaped contact (variant A's test) necessarily contains `@`, so
variant B's looser `includes("@")` test also accepts it. -/
theorem isEmail_implies_contactUsedDirectly {c : Option String}
    (h : isEmail c = true) : contactUsedDirectly c = true := by
  match c with
  | none => simp [isEmail] at h
  | some v =>
    simp only [isEmail, Bool.and_eq_true] at h
    obtain ⟨hne, hshape⟩ := h
    have hat : '@' ∈ v.data := mem_of_mem_jsTrim (emailShape_hasAt hshape)
    simp only [contactUsedDirectly, Bool.and_eq_true]
    exact ⟨hne, by simpa using hat⟩

/-- A contact with no `@` at all fails variant A's test. -/
theorem isEmail_eq_false_of_no_at {c : Option String} (h : hasAt c = false) :
    isEmail c = false := by
  match c with
  | none => rfl
  | some v =>
    by_contra hne
    have : isEmail (some v) = true := by
      cases hv : isEmail (some v)
      · exact absurd hv hne
      · rfl
    have hat : '@' ∈ v.data := by
      simp only [isEmail, Bool.and_eq_true] at this
      exact mem_of_mem_jsTrim (emailShape_hasAt this.2)
    simp [hasAt] at h
    exact h hat

/-- A contact with no `@` at all fails variant B's test too. -/
theorem contactUsedDirectly_eq_false_of_no_at {c : Option String}
    (h : hasAt c = false) : contactUsedDirectly c = false := by
  match c with
  | none => rfl
  | some v =>
    simp only [hasAt] at h
    simp only [contactUsedDirectly, Bool.and_eq_false_iff]
    right
    exact h

/-! ### Membership characterisations of the two resolvers -/

theorem phase1A_fst_mem (fuid : String) (rows : List LostItemRow)
    (acc : List String × List String) (a : String) :
    a ∈ (phase1A fuid acc rows).1 ↔
      a ∈ acc.1 ∨ ∃ r ∈ rows, r.user_id ≠ fuid ∧ isEmail r.contact_info = true ∧
        a = jsTrim (r.contact_info.getD "") := by
  induction rows generalizing acc with
  | nil => simp [phase1A]
  | cons r rs ih =>
    rw [phase1A, ih]
    unfold stepA
    by_cases h1 : r.user_id = fuid
    · simp only [h1, beq_self_eq_true, if_pos]
      constructor
      · rintro (h | h)
        · exact Or.inl h
        · exact Or.inr (by simpa using Or.inr h)
      · rintro (h | h)
        · exact Or.inl h
        · simp only [List.mem_cons] at h
          obtain ⟨x, hx | hx, hne, he, ha⟩ := h
          · exact absurd (hx ▸ h1) (hx ▸ hne)
          · exact Or.inr ⟨x, hx, hne, he, ha⟩
    · simp only [beq_iff_eq, if_neg h1]
      by_cases h2 : isEmail r.contact_info = true
      · simp only [h2, if_pos]
        simp only [mem_insertUniq, List.mem_cons]
        constructor
        · rintro ((h | h) | h)
          · exact Or.inl h
          · exact Or.inr ⟨r, Or.inl rfl, h1, h2, h⟩
          · obtain ⟨x, hx, p⟩ := h
            exact Or.inr ⟨x, Or.inr hx, p⟩
        · rintro (h | ⟨x, hx | hx, hne, he, ha⟩)
          · exact Or.inl (Or.inl h)
          · subst hx; exact Or.inl (Or.inr ha)
          · exact Or.inr ⟨x, hx, hne, he, ha⟩
      · simp only [h2, if_neg]
        constructor
        · rintro (h | h)
          · exact Or.inl h
          · obtain ⟨x, hx, p⟩ := h
            exact Or.inr ⟨x, List.mem_cons_of_mem _ hx, p⟩
        · rintro (h | ⟨x, hx, hne, he, ha⟩)
          · exact Or.inl h
          · simp only [List.mem_cons] at hx
            rcases hx with hx | hx
            · subst hx; exact absurd he h2
            · exact Or.inr ⟨x, hx, hne, he, ha⟩

theorem phase1A_snd_mem (fuid : String) (rows : List LostItemRow)
    (acc : List String × List String) (u : String) :
    u ∈ (phase1A fuid acc rows).2 ↔
      u ∈ acc.2 ∨ ∃ r ∈ rows, r.user_id ≠ fuid ∧ isEmail r.contact_info = false ∧
        u = r.user_id := by
  induction rows generalizing acc with
  | nil => simp [phase1A]
  | cons r rs ih =>
    rw [phase1A, ih]
    unfold stepA
    by_cases h1 : r.user_id = fuid
    · simp only [h1, beq_self_eq_true, if_pos]
      constructor
      · rintro (h | h)
        · exact Or.inl h
        · exact Or.inr (by simpa using Or.inr h)
      · rintro (h | h)
        · exact Or.inl h
        · simp only [List.mem_cons] at h
          obtain ⟨x, hx | hx, hne, he, ha⟩ := h
          · exact absurd (hx ▸ h1) (hx ▸ hne)
          · exact Or.inr ⟨x, hx, hne, he, ha⟩
    · simp only [beq_iff_eq, if_neg h1]
      by_cases h2 : isEmail r.contact_info = true
      · simp only [h2, if_pos]
        constructor
        · rintro (h | h)
          · exact Or.inl h
          · obtain ⟨x, hx, p⟩ := h
            exact Or.inr ⟨x, List.mem_cons_of_mem _ hx, p⟩
        · rintro (h | ⟨x, hx, hne, he, ha⟩)
          · exact Or.inl h
          · simp only [List.mem_cons] at hx
            rcases hx with hx | hx
            · subst hx; simp [h2] at he
            · exact Or.inr ⟨x, hx, hne, he, ha⟩
      · rw [Bool.not_eq_true] at h2
        simp only [h2, Bool.false_eq_true, if_neg, not_false_iff,
          mem_insertUniq, List.mem_cons]
        constructor
        · rintro ((h | h) | h)
          · exact Or.inl h
          · exact Or.inr ⟨r, Or.inl rfl, h1, h2, h⟩
          · obtain ⟨x, hx, p⟩ := h
            exact Or.inr ⟨x, Or.inr hx, p⟩
        · rintro (h | ⟨x, hx | hx, hne, he, ha⟩)
          · exact Or.inl (Or.inl h)
          · subst hx; exact Or.inl (Or.inr ha)
          · exact Or.inr ⟨x, hx, hne, he, ha⟩

theorem phase2A_mem (lk : String → GetUserResult) (miss : List String)
    (rec : List String) (a : String) :
    a ∈ phase2A lk rec miss ↔
      a ∈ rec ∨ ∃ u ∈ miss, lk u = .found a := by
  induction miss generalizing rec with
  | nil => simp [phase2A]
  | cons u us ih =>
    rw [phase2A]
    cases hu : lk u with
    | found e =>
      rw [ih]
      simp only [mem_insertUniq, List.mem_cons]
      constructor
      · rintro ((h | h) | h)
        · exact Or.inl h
        · exact Or.inr ⟨u, Or.inl rfl, by rw [hu, h]⟩
        · obtain ⟨x, hx, p⟩ := h
          exact Or.inr ⟨x, Or.inr hx, p⟩
      · rintro (h | ⟨x, hx | hx, p⟩)
        · exact Or.inl (Or.inl h)
        · subst hx; rw [hu] at p
          exact Or.inl (Or.inr (by injection p with q; exact q.symm))
        · exact Or.inr ⟨x, hx, p⟩
    | noEmail =>
      rw [ih]
      constructor
      · rintro (h | ⟨x, hx, p⟩)
        · exact Or.inl h
        · exact Or.inr ⟨x, List.mem_cons_of_mem _ hx, p⟩
      · rintro (h | ⟨x, hx, p⟩)
        · exact Or.inl h
        · simp only [List.mem_cons] at hx
          rcases hx with hx | hx
          · subst hx; rw [hu] at p; cases p
          · exact Or.inr ⟨x, hx, p⟩
    | errResult =>
      rw [ih]
      constructor
      · rintro (h | ⟨x, hx, p⟩)
        · exact Or.inl h
        · exact Or.inr ⟨x, List.mem_cons_of_mem _ hx, p⟩
      · rintro (h | ⟨x, hx, p⟩)
        · exact Or.inl h
        · simp only [List.mem_cons] at hx
          rcases hx with hx | hx
          · subst hx; rw [hu] at p; cases p
          · exact Or.inr ⟨x, hx, p⟩
    | thrownErr =>
      rw [ih]
      constructor
      · rintro (h | ⟨x, hx, p⟩)
        · exact Or.inl h
        · exact Or.inr ⟨x, List.mem_cons_of_mem _ hx, p⟩
      · rintro (h | ⟨x, hx, p⟩)
        · exact Or.inl h
        · simp only [List.mem_cons] at hx
          rcases hx with hx | hx
          · subst hx; rw [hu] at p; cases p
          · exact Or.inr ⟨x, hx, p⟩

/-- What ends up in variant A's recipient set, characterised row by row. -/
theorem resolveRecipientsA_mem (lk : String → GetUserResult) (fuid : String)
    (rows : List LostItemRow) (a : String) :
    a ∈ resolveRecipientsA lk fuid rows ↔
      (∃ r ∈ rows, r.user_id ≠ fuid ∧ isEmail r.contact_info = true ∧
        a = jsTrim (r.contact_info.getD "")) ∨
      (∃ r ∈ rows, r.user_id ≠ fuid ∧ isEmail r.contact_info = false ∧
        lk r.user_id = .found a) := by
  unfold resolveRecipientsA resolveA
  rw [phase2A_mem, phase1A_fst_mem]
  simp only [List.not_mem_nil, false_or]
  constructor
  · rintro (h | ⟨u, hu, p⟩)
    · exact Or.inl h
    · rw [phase1A_snd_mem] at hu
      simp only [List.not_mem_nil, false_or] at hu
      obtain ⟨r, hr, hne, he, rfl⟩ := hu
      exact Or.inr ⟨r, hr, hne, he, p⟩
  · rintro (h | ⟨r, hr, hne, he, p⟩)
    · exact Or.inl h
    · refine Or.inr ⟨r.user_id, ?_, p⟩
      rw [phase1A_snd_mem]
      simp only [List.not_mem_nil, false_or]
      exact ⟨r, hr, hne, he, rfl⟩

/-- What ends up in variant B's recipient set, characterised row by row. -/
theorem resolveBAux_fst_mem (lk : String → GetUserResult)
    (rows : List LostItemRow) (acc : List String × List String) (a : String) :
    a ∈ (resolveBAux lk acc rows).1 ↔
      a ∈ acc.1 ∨ ∃ r ∈ rows,
        (contactUsedDirectly r.contact_info = true ∧
          a = jsTrim (r.contact_info.getD "")) ∨
        (contactUsedDirectly r.contact_info = false ∧ r.user_id ≠ "" ∧
          lk r.user_id = .found a) := by
  induction rows generalizing acc with
  | nil => simp [resolveBAux]
  | cons r rs ih =>
    rw [resolveBAux, ih]
    unfold stepB
    by_cases h1 : contactUsedDirectly r.contact_info = true
    · simp only [h1, if_pos]
      simp only [mem_insertUniq, List.mem_cons]
      constructor
      · rintro ((h | h) | h)
        · exact Or.inl h
        · exact Or.inr ⟨r, Or.inl rfl, Or.inl ⟨h1, h⟩⟩
        · obtain ⟨x, hx, p⟩ := h
          exact Or.inr ⟨x, Or.inr hx, p⟩
      · rintro (h | ⟨x, hx | hx, p⟩)
        · exact Or.inl (Or.inl h)
        · subst hx
          rcases p with ⟨_, ha⟩ | ⟨hcd, _⟩
          · exact Or.inl (Or.inr ha)
          · exact absurd h1 (by simp [hcd])
        · exact Or.inr ⟨x, hx, p⟩
    · rw [Bool.not_eq_true] at h1
      simp only [h1, Bool.false_eq_true, if_neg, not_false_iff]
      by_cases h2 : r.user_id = ""
      · simp only [h2, beq_self_eq_true, if_pos]
        constructor
        · rintro (h | ⟨x, hx, p⟩)
          · exact Or.inl h
          · exact Or.inr ⟨x, List.mem_cons_of_mem _ hx, p⟩
        · rintro (h | ⟨x, hx, p⟩)
          · exact Or.inl h
          · simp only [List.mem_cons] at hx
            rcases hx with hx | hx
            · subst hx
              rcases p with ⟨hcd, _⟩ | ⟨_, hne, _⟩
              · rw [h1] at hcd; cases hcd
              · exact absurd h2 hne
            · exact Or.inr ⟨x, hx, p⟩
      · simp only [beq_iff_eq, if_neg h2]
        cases hu : lk r.user_id with
        | found e =>
          simp only [mem_insertUniq, List.mem_cons]
          constructor
          · rintro ((h | h) | h)
            · exact Or.inl h
            · exact Or.inr ⟨r, Or.inl rfl, Or.inr ⟨h1, h2, by rw [hu, h]⟩⟩
            · obtain ⟨x, hx, p⟩ := h
              exact Or.inr ⟨x, Or.inr hx, p⟩
          · rintro (h | ⟨x, hx | hx, p⟩)
            · exact Or.inl (Or.inl h)
            · subst hx
              rcases p with ⟨hcd, _⟩ | ⟨_, _, hf⟩
              · rw [h1] at hcd; cases hcd
              · rw [hu] at hf
                exact Or.inl (Or.inr (by injection hf with q; exact q.symm))
            · exact Or.inr ⟨x, hx, p⟩
        | noEmail =>
          constructor
          · rintro (h | ⟨x, hx, p⟩)
            · exact Or.inl h
            · exact Or.inr ⟨x, List.mem_cons_of_mem _ hx, p⟩
          · rintro (h | ⟨x, hx, p⟩)
            · exact Or.inl h
            · simp only [List.mem_cons] at hx
              rcases hx with hx | hx
              · subst hx
                rcases p with ⟨hcd, _⟩ | ⟨_, _, hf⟩
                · rw [h1] at hcd; cases hcd
                · rw [hu] at hf; cases hf
              · exact Or.inr ⟨x, hx, p⟩
        | errResult =>
          constructor
          · rintro (h | ⟨x, hx, p⟩)
            · exact Or.inl h
            · exact Or.inr ⟨x, List.mem_cons_of_mem _ hx, p⟩
          · rintro (h | ⟨x, hx, p⟩)
            · exact Or.inl h
            · simp only [List.mem_cons] at hx
              rcases hx with hx | hx
              · subst hx
                rcases p with ⟨hcd, _⟩ | ⟨_, _, hf⟩
                · rw [h1] at hcd; cases hcd
                · rw [hu] at hf; cases hf
              · exact Or.inr ⟨x, hx, p⟩
        | thrownErr =>
          constructor
          · rintro (h | ⟨x, hx, p⟩)
            · exact Or.inl h
            · exact Or.inr ⟨x, List.mem_cons_of_mem _ hx, p⟩
          · rintro (h | ⟨x, hx, p⟩)
            · exact Or.inl h
            · simp only [List.mem_cons] at hx
              rcases hx with hx | hx
              · subst hx
                rcases p with ⟨hcd, _⟩ | ⟨_, _, hf⟩
                · rw [h1] at hcd; cases hcd
                · rw [hu] at hf; cases hf
              · exact Or.inr ⟨x, hx, p⟩

/-! ### Deduplication invariants -/

theorem phase1A_fst_nodup (fuid : String) (rows : List LostItemRow)
    (acc : List String × List String) (h : acc.1.Nodup) :
    ((phase1A fuid acc rows).1).Nodup := by
  induction rows generalizing acc with
  | nil => exact h
  | cons r rs ih =>
    rw [phase1A]
    apply ih
    unfold stepA
    split
    · exact h
    · split
      · exact nodup_insertUniq h
      · exact h

theorem phase2A_nodup (lk : String → GetUserResult) (miss : List String)
    (rec : List String) (h : rec.Nodup) : (phase2A lk rec miss).Nodup := by
  induction miss generalizing rec with
  | nil => exact h
  | cons u us ih =>
    rw [phase2A]
    cases lk u
    · exact ih _ (nodup_insertUniq h)
    · exact ih _ h
    · exact ih _ h
    · exact ih _ h

theorem resolveRecipientsA_nodup (lk : String → GetUserResult) (fuid : String)
    (rows : List LostItemRow) : (resolveRecipientsA lk fuid rows).Nodup :=
  phase2A_nodup lk _ _ (phase1A_fst_nodup fuid rows ([], []) List.nodup_nil)

theorem resolveBAux_fst_nodup (lk : String → GetUserResult)
    (rows : List LostItemRow) (acc : List String × List String)
    (h : acc.1.Nodup) : ((resolveBAux lk acc rows).1).Nodup := by
  induction rows generalizing acc with
  | nil => exact h
  | cons r rs ih =>
    rw [resolveBAux]
    apply ih
    unfold stepB
    split
    · exact nodup_insertUniq h
    · split
      · exact h
      · split
        · exact nodup_insertUniq h
        · exact h

theorem resolveRecipientsB_nodup (lk : String → GetUserResult)
    (rows : List LostItemRow) : (resolveRecipientsB lk rows).Nodup :=
  resolveBAux_fst_nodup lk rows ([], []) List.nodup_nil

/-! ### Owner exclusion -/

/-- Variant A's loop skips rows owned by the finder, so filtering them away
beforehand changes nothing at all. -/
theorem phase1A_filter_finder (fuid : String) (rows : List LostItemRow)
    (acc : List String × List String) :
    phase1A fuid acc (rows.filter fun r => !(r.user_id == fuid)) =
      phase1A fuid acc rows := by
  induction rows generalizing acc with
  | nil => rfl
  | cons r rs ih =>
    by_cases h : r.user_id = fuid
    · have hstep : stepA fuid acc r = acc := by
        unfold stepA
        simp [h]
      rw [phase1A, hstep, ← ih]
      simp [List.filter_cons, h]
    · rw [phase1A, ← ih]
      have : (r.user_id == fuid) = false := by simp [h]
      simp [List.filter_cons, this, phase1A]

theorem resolveA_filter_finder (lk : String → GetUserResult) (fuid : String)
    (rows : List LostItemRow) :
    resolveA lk fuid (rows.filter fun r => !(r.user_id == fuid)) =
      resolveA lk fuid rows := by
  unfold resolveA
  rw [phase1A_filter_finder]

/-- Rows surviving variant B's query filter cannot be owned by the finder,
provided the finder's id is truthy (otherwise the `neq` is never attached). -/
theorem lostQueryB_excludes_finder {db : List ItemRow} {cat fuid : String}
    (hf : fuid ≠ "") {r : LostItemRow} (hr : r ∈ lostQueryB db cat fuid) :
    r.user_id ≠ fuid := by
  unfold lostQueryB at hr
  rw [List.mem_map] at hr
  obtain ⟨x, hx, rfl⟩ := hr
  rw [List.mem_filter] at hx
  have := hx.2
  simp only [Bool.and_eq_true] at this
  have hneq := this.2
  rw [if_neg (by simpa using hf)] at hneq
  simpa [toLostItemRow] using hneq

/-! ### Lookup failures are indistinguishable from missing emails -/

theorem phase2A_defuse (lk : String → GetUserResult) (miss : List String)
    (rec : List String) :
    phase2A (fun u => defuse (lk u)) rec miss = phase2A lk rec miss := by
  induction miss generalizing rec with
  | nil => rfl
  | cons u us ih =>
    rw [phase2A, phase2A]
    cases hu : lk u <;> simp only [hu, defuse] <;> exact ih _

theorem resolveA_defuse (lk : String → GetUserResult) (fuid : String)
    (rows : List LostItemRow) :
    resolveA (fun u => defuse (lk u)) fuid rows = resolveA lk fuid rows := by
  simp only [resolveA, phase2A_defuse]

theorem resolveBAux_defuse (lk : String → GetUserResult)
    (rows : List LostItemRow) (acc : List String × List String) :
    resolveBAux (fun u => defuse (lk u)) acc rows = resolveBAux lk acc rows := by
  induction rows generalizing acc with
  | nil => rfl
  | cons r rs ih =>
    rw [resolveBAux, resolveBAux]
    have hstep : stepB (fun u => defuse (lk u)) acc r = stepB lk acc r := by
      unfold stepB
      split
      · rfl
      · split
        · rfl
        · cases hu : lk r.user_id <;> simp only [hu, defuse]
    rw [hstep]
    exact ih _

/-! ### Dispatch closed forms -/

def detailOfSend : SendOutcome → Option String
  | .httpErr d => some d
  | _ => none

/-- The settled `{ to, ok, detail }` record for one non-rejecting dispatch. -/
def mkResultA (send : String → SendOutcome) (toAddr : String) :
    String × Bool × Option String :=
  (toAddr, isOkSend (send toAddr), detailOfSend (send toAddr))

/-- The failure entry variant B's loop records for one recipient, if any. -/
def failEntryB (send : String → SendOutcome) (toAddr : String) :
    Option (String × String) :=
  match send toAddr with
  | .ok => none
  | .httpErr d => some (toAddr, d)
  | .thrownErr m => some (toAddr, m)

/-- When no dispatch promise rejects, variant A's `Promise.all` settles with
one independent record per recipient, in order. -/
theorem dispatchA_eq_of_no_thrown (send : String → SendOutcome)
    (toList : List String)
    (h : ∀ x ∈ toList, isThrownSend (send x) = false) :
    dispatchA send toList = some (toList.map (mkResultA send)) := by
  induction toList with
  | nil => rfl
  | cons x xs ih =>
    unfold dispatchA at ih ⊢
    rw [List.mapM_cons, ih (fun y hy => h y (List.mem_cons_of_mem _ hy))]
    have hx := h x (List.mem_cons_self x xs)
    cases hs : send x
    · simp [sendResultA, hs, mkResultA, isOkSend, detailOfSend]
    · simp [sendResultA, hs, mkResultA, isOkSend, detailOfSend]
    · rw [hs] at hx
      simp [isThrownSend] at hx

/-- If any dispatch promise rejects, variant A's `Promise.all` rejects and no
per-recipient record survives. -/
theorem dispatchA_eq_none_of_thrown (send : String → SendOutcome)
    (toList : List String) (x : String) (hx : x ∈ toList)
    (h : isThrownSend (send x) = true) :
    dispatchA send toList = none := by
  induction toList with
  | nil => cases hx
  | cons y ys ih =>
    unfold dispatchA
    rw [List.mapM_cons]
    rcases List.mem_cons.1 hx with rfl | hmem
    · cases hs : send x
      · rw [hs] at h; simp [isThrownSend] at h
      · rw [hs] at h; simp [isThrownSend] at h
      · simp [sendResultA, hs]
    · cases hs : send y
      · simp only [sendResultA, hs]
        rw [show (List.mapM (sendResultA send) ys : Option _) = none from ih hmem]
        rfl
      · simp only [sendResultA, hs]
        rw [show (List.mapM (sendResultA send) ys : Option _) = none from ih hmem]
        rfl
      · simp [sendResultA, hs]

/-- Variant B's loop records every recipient's outcome independently: `sent`
counts the 2xx responses and every non-2xx response or thrown transport error
appends one failure entry, in order. -/
theorem dispatchB_closed (send : String → SendOutcome) (toList : List String)
    (acc : Nat × List (String × String)) :
    dispatchB send acc toList =
      (acc.1 + (toList.filter fun x => isOkSend (send x)).length,
       acc.2 ++ toList.filterMap (failEntryB send)) := by
  induction toList generalizing acc with
  | nil => simp [dispatchB]
  | cons x xs ih =>
    rw [dispatchB]
    cases hs : send x <;> dsimp only
    · rw [ih]
      simp [List.filter_cons, List.filterMap_cons, failEntryB, hs, isOkSend]
      omega
    · rw [ih]
      simp [List.filter_cons, List.filterMap_cons, failEntryB, hs, isOkSend]
    · rw [ih]
      simp [List.filter_cons, List.filterMap_cons, failEntryB, hs, isOkSend]

theorem not_jsWs_of_validChar {x : Char} (h : validChar x = true) :
    isJsWs x = false := by
  unfold validChar at h
  simp only [Bool.and_eq_true] at h
  simpa using h.1

/-- An email-shaped string contains no whitespace at either end, so trimming
it is the identity. -/
theorem jsTrim_eq_self_of_emailShape {c : String} (h : emailShape c = true) :
    jsTrim c = c := by
  unfold emailShape at h
  simp only [Bool.and_eq_true] at h
  obtain ⟨⟨⟨⟨⟨hat, hl⟩, hall⟩, hrall⟩, hrat⟩, hdot⟩ := h
  rcases hcs : c.data with _ | ⟨c0, rest⟩
  · rw [hcs] at hat
    simp at hat
  · rw [hcs] at hl hall hrall hdot
    -- the leading character is admitted by `[^\s@]`, hence not whitespace
    have hp : (!(c0 == '@')) = true := by
      by_contra hq
      have : (!(c0 == '@')) = false := by
        cases hv : (!(c0 == '@'))
        · rfl
        · exact absurd hv hq
      rw [List.takeWhile_cons, if_neg (by simp_all)] at hl
      simp at hl
    rw [List.takeWhile_cons, if_pos (by simp_all)] at hall hrall hdot
    have hc0 : validChar c0 = true := by
      rw [List.all_cons, Bool.and_eq_true] at hall
      exact hall.1
    have hws0 : isJsWs c0 = false := not_jsWs_of_validChar hc0
    -- the trailing character lies in the part after `@`, hence not whitespace
    set r := (c0 :: rest).drop
      ((c0 :: List.takeWhile (fun c => !(c == '@')) rest).length + 1) with hrdef
    have hrne : r ≠ [] := by
      intro hnil
      rw [hnil] at hdot
      simp at hdot
    have hrrev : r.reverse ≠ [] := by
      simpa using hrne
    rcases hrev : r.reverse with _ | ⟨a, t⟩
    · exact absurd hrev hrrev
    · have ha : a ∈ r := by
        rw [← List.mem_reverse, hrev]
        exact List.mem_cons_self a t
      have hav : validChar a = true := by
        rw [List.all_eq_true] at hrall
        exact hrall a ha
      have hwsa : isJsWs a = false := not_jsWs_of_validChar hav
      -- assemble: both dropWhile passes are the identity
      have hsplit : (c0 :: rest) =
          (c0 :: rest).take
            ((c0 :: List.takeWhile (fun c => !(c == '@')) rest).length + 1) ++ r := by
        rw [hrdef, List.take_append_drop]
      have hrev2 : (c0 :: rest).reverse =
          a :: (t ++ ((c0 :: rest).take
            ((c0 :: List.takeWhile (fun c => !(c == '@')) rest).length + 1)).reverse) := by
        conv_lhs => rw [hsplit]
        rw [List.reverse_append, hrev]
        simp
      unfold jsTrim
      rw [hcs]
      rw [List.dropWhile_cons, if_neg (by simp [hws0])]
      rw [hrev2, List.dropWhile_cons, if_neg (by simp [hwsa])]
      rw [← hrev2, List.reverse_reverse]
      rw [← hcs]

/-- A raw contact string matching the email regex is accepted verbatim by
variant A's `isEmail` (trimming such a string changes nothing). -/
theorem isEmail_of_emailShape {c : String} (h : emailShape c = true) :
    isEmail (some c) = true := by
  have hne : ¬ c = "" := by
    intro hq
    rw [hq] at h
    simp [emailShape] at h
  simp only [isEmail, Bool.and_eq_true]
  constructor
  · simpa using hne
  · rw [jsTrim_eq_self_of_emailShape h]
    exact h

theorem resolveRecipientsB_mem (lk : String → GetUserResult)
    (rows : List LostItemRow) (a : String) :
    a ∈ resolveRecipientsB lk rows ↔
      ∃ r ∈ rows,
        (contactUsedDirectly r.contact_info = true ∧
          a = jsTrim (r.contact_info.getD "")) ∨
        (contactUsedDirectly r.contact_info = false ∧ r.user_id ≠ "" ∧
          lk r.user_id = .found a) := by
  unfold resolveRecipientsB
  rw [resolveBAux_fst_mem]
  simp

theorem contactUsedDirectly_of_hasAt {v : String}
    (h : hasAt (some v) = true) : contactUsedDirectly (some v) = true := by
  simp only [hasAt] at h
  have hne : v.data ≠ [] := by
    intro hq
    rw [hq] at h
    simp at h
  simp only [contactUsedDirectly, Bool.and_eq_true]
  refine ⟨?_, h⟩
  simp only [Bool.not_eq_true', beq_eq_false_iff_ne]
  intro hq
  rw [hq] at hne
  exact hne rfl

/-! ## Claims -/

/-- C9: on the specification's concrete scenario — found item
`{category:"Electronics", title:"iPhone 13", reporter u1}`, candidates owned
by `u2` (contact `a@b.com`) and `u3` (no contact, account email `c@d.com`) —
both variants resolve exactly `{a@b.com, c@d.com}`, dispatch once to each,
and report two recipients in the summary. -/
theorem C9_scenario :
    handlerA env9 reqA9 =
      ⟨⟨200, .summaryA ["a@b.com", "c@d.com"] []⟩, ["a@b.com", "c@d.com"], ["u3"]⟩ ∧
    handlerB env9 reqB9 =
      ⟨⟨200, .summaryB "Electronics" 2 2 []⟩, ["a@b.com", "c@d.com"], ["u3"]⟩ ∧
    resolveRecipientsA env9.getUserById "u1" (lostQueryA env9.db "Electronics") =
      ["a@b.com", "c@d.com"] ∧
    resolveRecipientsB env9.getUserById (lostQueryB env9.db "Electronics" "u1") =
      ["a@b.com", "c@d.com"] :=
  ⟨rfl, rfl, rfl, rfl⟩

/-- C6: neither variant ever dispatches to a duplicated address — the
resolved recipient collections are duplicate-free for every input, and so is
whatever list either handler actually dispatches to. -/
theorem C6_no_duplicate_recipients :
    (∀ lk fuid rows, (resolveRecipientsA lk fuid rows).Nodup) ∧
    (∀ lk rows, (resolveRecipientsB lk rows).Nodup) ∧
    (∀ env req, (handlerA env req).dispatched.Nodup) ∧
    (∀ env req, (handlerB env req).dispatched.Nodup) := by
  refine ⟨resolveRecipientsA_nodup, resolveRecipientsB_nodup, ?_, ?_⟩
  · intro env req
    unfold handlerA
    dsimp only
    repeat' split
    all_goals first
      | exact List.nodup_nil
      | exact resolveRecipientsA_nodup _ _ _
  · intro env req
    unfold handlerB
    dsimp only
    repeat' split
    all_goals first
      | exact List.nodup_nil
      | exact resolveRecipientsB_nodup _ _

/-- C3: no lost item owned by the found item's reporter contributes a
recipient.  In variant A the loop skips such rows, so removing them
beforehand changes nothing; in variant B the query's `neq` filter (attached
whenever the reporter id is truthy) keeps them out of the candidate rows. -/
theorem C3_finder_excluded :
    (∀ lk fuid rows,
      resolveA lk fuid (rows.filter fun r => !(r.user_id == fuid)) =
        resolveA lk fuid rows) ∧
    (∀ db cat fuid, fuid ≠ "" → ∀ r ∈ lostQueryB db cat fuid, r.user_id ≠ fuid) :=
  ⟨resolveA_filter_finder,
   fun _ _ _ hf _ hr => lostQueryB_excludes_finder hf hr⟩

theorem C3_witness :
    resolveA lk9 "u1"
        ((lostQueryA db9 "Electronics").filter fun r => !(r.user_id == "u1")) =
      resolveA lk9 "u1" (lostQueryA db9 "Electronics") ∧
    (toLostItemRow lostRow9a).user_id ≠ "u1" :=
  ⟨C3_finder_excluded.1 lk9 "u1" _,
   C3_finder_excluded.2 db9 "Electronics" "u1" (by decide) _ (by decide)⟩

/-- C5: a candidate whose stored contact matches the email shape is added
directly (after trimming, which is the identity on shape-matching strings)
and contributes nothing to the set of account lookups: variant A's loop step
leaves `missingEmailUserIds` untouched and variant B's loop step leaves its
looked-up ids untouched. -/
theorem C5_shaped_contact_direct :
    (∀ c, emailShape c = true → isEmail (some c) = true ∧ jsTrim c = c) ∧
    (∀ fuid acc r, r.user_id ≠ fuid → isEmail r.contact_info = true →
      stepA fuid acc r = (insertUniq acc.1 (jsTrim (r.contact_info.getD "")), acc.2)) ∧
    (∀ lk acc r, isEmail r.contact_info = true →
      stepB lk acc r = (insertUniq acc.1 (jsTrim (r.contact_info.getD "")), acc.2)) := by
  refine ⟨fun c h => ⟨isEmail_of_emailShape h, jsTrim_eq_self_of_emailShape h⟩, ?_, ?_⟩
  · intro fuid acc r hne he
    unfold stepA
    rw [if_neg (by simp [hne]), if_pos he]
  · intro lk acc r he
    unfold stepB
    rw [if_pos (isEmail_implies_contactUsedDirectly he)]

theorem C5_witness :
    (isEmail (some "a@b.com") = true ∧ jsTrim "a@b.com" = "a@b.com") ∧
    stepA "u1" ([], []) (toLostItemRow lostRow9a) = (["a@b.com"], []) ∧
    stepB lk9 ([], []) (toLostItemRow lostRow9a) = (["a@b.com"], []) := by
  refine ⟨C5_shaped_contact_direct.1 "a@b.com" (by decide), ?_, ?_⟩
  · rw [C5_shaped_contact_direct.2.1 "u1" ([], []) (toLostItemRow lostRow9a)
      (by decide) (by decide)]
    rfl
  · rw [C5_shaped_contact_direct.2.2 lk9 ([], []) (toLostItemRow lostRow9a)
      (by decide)]
    rfl

/-- C8: whenever a request reaches recipient resolution and the resolved set
is empty, both variants answer 200 — variant A with the explicit empty
recipient list, variant B with a summary counting zero recipients — and
neither dispatches any delivery request. -/
theorem C8_empty_recipient_set :
    (∀ env found, found.category ≠ "" → found.user_id ≠ "" →
      truthy env.SUPABASE_URL = true →
      truthy env.SUPABASE_SERVICE_ROLE_KEY = true →
      env.lostErr = none →
      resolveRecipientsA env.getUserById found.user_id
        (lostQueryA env.db found.category) = [] →
      (handlerA env ⟨"POST", .parsed (some found)⟩).response =
        ⟨200, .noRecipients []⟩ ∧
      (handlerA env ⟨"POST", .parsed (some found)⟩).dispatched = []) ∧
    (∀ env fid row, fid ≠ "" →
      truthy env.SUPABASE_URL = true →
      truthy env.SUPABASE_SERVICE_ROLE_KEY = true →
      truthy env.RESEND_API_KEY = true →
      fetchSingle env.db fid = some row →
      env.lostErr = none →
      resolveRecipientsB env.getUserById
        (lostQueryB env.db row.category row.user_id) = [] →
      (handlerB env ⟨"POST", some fid⟩).response =
        ⟨200, .summaryB row.category 0 0 []⟩ ∧
      (handlerB env ⟨"POST", some fid⟩).dispatched = []) := by
  constructor
  · intro env found hc hu h1 h2 h3 h4
    simp only [resolveRecipientsA] at h4
    simp [handlerA, hc, hu, h1, h2, h3, h4]
  · intro env fid row hf h1 h2 h3 hrow h4 h5
    simp only [resolveRecipientsB] at h5
    simp [handlerB, hf, h1, h2, h3, hrow, h4, h5, dispatchB]

theorem C8_witness :
    ((handlerA envEmpty reqA9).response = ⟨200, .noRecipients []⟩ ∧
      (handlerA envEmpty reqA9).dispatched = []) ∧
    ((handlerB envEmpty reqB9).response = ⟨200, .summaryB "Electronics" 0 0 []⟩ ∧
      (handlerB envEmpty reqB9).dispatched = []) :=
  ⟨C8_empty_recipient_set.1 envEmpty found9 (by decide) (by decide) rfl rfl rfl rfl,
   C8_empty_recipient_set.2 envEmpty "f1" foundRow9 (by decide) rfl rfl rfl rfl rfl rfl⟩

/-- C10: in the inline-payload variant the empty-recipient return precedes
the `RESEND_API_KEY` check, so a request resolving zero recipients gets the
200 empty-list response even with the credential absent, and the
"provider not configured" body can only ever carry a non-empty recipient
list. -/
theorem C10_empty_check_precedes_credential_check :
    (∀ env found, found.category ≠ "" → found.user_id ≠ "" →
      truthy env.SUPABASE_URL = true →
      truthy env.SUPABASE_SERVICE_ROLE_KEY = true →
      env.lostErr = none →
      truthy env.RESEND_API_KEY = false →
      resolveRecipientsA env.getUserById found.user_id
        (lostQueryA env.db found.category) = [] →
      (handlerA env ⟨"POST", .parsed (some found)⟩).response =
        ⟨200, .noRecipients []⟩ ∧
      (handlerA env ⟨"POST", .parsed (some found)⟩).dispatched = []) ∧
    (∀ env req l s,
      (handlerA env req).response.body = .notConfigured l s → l ≠ []) := by
  constructor
  · intro env found hc hu h1 h2 h3 _ h4
    simp only [resolveRecipientsA] at h4
    simp [handlerA, hc, hu, h1, h2, h3, h4]
  · intro env req l s h
    unfold handlerA at h
    dsimp only at h
    repeat' split at h
    all_goals simp_all

theorem C10_witness :
    ((handlerA { envEmpty with RESEND_API_KEY := none } reqA9).response =
        ⟨200, .noRecipients []⟩ ∧
      (handlerA { envEmpty with RESEND_API_KEY := none } reqA9).dispatched = []) ∧
    (["a@b.com", "c@d.com"] : List String) ≠ [] :=
  ⟨C10_empty_check_precedes_credential_check.1 _ found9 (by decide) (by decide)
      rfl rfl rfl rfl rfl,
   C10_empty_check_precedes_credential_check.2 envNoResend reqA9
      ["a@b.com", "c@d.com"]
      "New found item in Electronics may match your lost item" rfl⟩

/-- C1 counterexample: with `RESEND_API_KEY` unset, the identifier-lookup
variant answers 500 `{error: "Missing RESEND_API_KEY secret"}` — before it
ever resolves recipients — even though the same request data resolves the
non-empty recipient set `{a@b.com, c@d.com}`.  The claim instead demands a
200 response listing the intended recipients. -/
theorem C1_counterexample :
    handlerB envNoResend reqB9 =
      ⟨⟨500, .errorMsg "Missing RESEND_API_KEY secret"⟩, [], []⟩ ∧
    resolveRecipientsB envNoResend.getUserById
      (lostQueryB envNoResend.db "Electronics" "u1") = ["a@b.com", "c@d.com"] :=
  ⟨rfl, rfl⟩

/-- C1 (amended): only the inline-payload variant treats a missing
email-delivery credential as a successful no-op, answering 200 with the
intended recipients and dispatching nothing; the identifier-lookup variant
treats it as a configuration error and answers 500 before any recipient
resolution, likewise dispatching nothing. -/
theorem C1_missing_credential :
    (∀ env found, found.category ≠ "" → found.user_id ≠ "" →
      truthy env.SUPABASE_URL = true →
      truthy env.SUPABASE_SERVICE_ROLE_KEY = true →
      env.lostErr = none →
      truthy env.RESEND_API_KEY = false →
      resolveRecipientsA env.getUserById found.user_id
        (lostQueryA env.db found.category) ≠ [] →
      (handlerA env ⟨"POST", .parsed (some found)⟩).response =
        ⟨200, .notConfigured
          (resolveRecipientsA env.getUserById found.user_id
            (lostQueryA env.db found.category))
          (composeEmailSubject found)⟩ ∧
      (handlerA env ⟨"POST", .parsed (some found)⟩).dispatched = []) ∧
    (∀ env fid,
      truthy env.SUPABASE_URL = true →
      truthy env.SUPABASE_SERVICE_ROLE_KEY = true →
      truthy env.RESEND_API_KEY = false →
      handlerB env ⟨"POST", fid⟩ =
        ⟨⟨500, .errorMsg "Missing RESEND_API_KEY secret"⟩, [], []⟩) := by
  constructor
  · intro env found hc hu h1 h2 h3 hk h4
    simp only [resolveRecipientsA] at h4
    simp [handlerA, hc, hu, h1, h2, h3, hk, h4, resolveRecipientsA,
      composeEmailSubject]
  · intro env fid h1 h2 hk
    simp [handlerB, h1, h2, hk]

theorem C1_witness :
    ((handlerA envNoResend reqA9).response =
        ⟨200, .notConfigured
          (resolveRecipientsA envNoResend.getUserById "u1"
            (lostQueryA envNoResend.db "Electronics"))
          (composeEmailSubject found9)⟩ ∧
      (handlerA envNoResend reqA9).dispatched = []) ∧
    handlerB envNoResend ⟨"POST", some "f1"⟩ =
      ⟨⟨500, .errorMsg "Missing RESEND_API_KEY secret"⟩, [], []⟩ :=
  ⟨C1_missing_credential.1 envNoResend found9 (by decide) (by decide)
      rfl rfl rfl rfl (by decide),
   C1_missing_credential.2 envNoResend (some "f1") rfl rfl rfl⟩

/-- C2 counterexample: the contact string `a@b` contains `@` but fails the
strict shape, so the identifier-lookup variant uses it directly as a
recipient while the inline variant does not — on a candidate row carrying it
(owner `u9`, every account lookup failing) the two variants resolve different
recipient sets. -/
theorem C2_counterexample :
    isEmail (some "a@b") = false ∧
    contactUsedDirectly (some "a@b") = true ∧
    resolveRecipientsA lkNone "u1" [rowAtOnly] = [] ∧
    resolveRecipientsB lkNone [rowAtOnly] = ["a@b"] :=
  ⟨by decide, by decide, rfl, rfl⟩

/-- C2 (amended): the two variants agree on whether a candidate contact
string is used directly exactly when that string matches the strict email
shape or contains no `@` at all; they disagree on every string containing
`@` that fails the strict shape.  Restricted to candidate rows whose contacts
lie in the agreement region and whose owner ids are nonempty, the two
variants resolve the same recipient set (variant A's in-loop finder exclusion
matching variant B's query-level `neq` filter). -/
theorem C2_variant_agreement :
    (∀ c, (isEmail c = contactUsedDirectly c) ↔
      (isEmail c = true ∨ hasAt c = false)) ∧
    (∀ lk fuid rows,
      (∀ r ∈ rows, isEmail r.contact_info = contactUsedDirectly r.contact_info) →
      (∀ r ∈ rows, r.user_id ≠ "") →
      ∀ a, a ∈ resolveRecipientsA lk fuid rows ↔
        a ∈ resolveRecipientsB lk (rows.filter fun r => !(r.user_id == fuid))) := by
  constructor
  · intro c
    constructor
    · intro heq
      by_cases he : isEmail c = true
      · exact Or.inl he
      · right
        rw [Bool.not_eq_true] at he
        rw [he] at heq
        by_contra hat
        rw [Bool.not_eq_false] at hat
        match c with
        | none => simp [hasAt] at hat
        | some v =>
          rw [contactUsedDirectly_of_hasAt hat] at heq
          cases heq
    · rintro (he | hf)
      · rw [he, isEmail_implies_contactUsedDirectly he]
      · rw [isEmail_eq_false_of_no_at hf, contactUsedDirectly_eq_false_of_no_at hf]
  · intro lk fuid rows hagree huid a
    rw [resolveRecipientsA_mem, resolveRecipientsB_mem]
    constructor
    · rintro (⟨r, hr, hne, he, ha⟩ | ⟨r, hr, hne, he, hf⟩)
      · refine ⟨r, List.mem_filter.2 ⟨hr, by simp [hne]⟩, Or.inl ⟨?_, ha⟩⟩
        rw [← hagree r hr]
        exact he
      · refine ⟨r, List.mem_filter.2 ⟨hr, by simp [hne]⟩,
          Or.inr ⟨?_, huid r hr, hf⟩⟩
        rw [← hagree r hr]
        exact he
    · rintro ⟨r, hr, hcase⟩
      have hmem : r ∈ rows := (List.mem_filter.1 hr).1
      have hne : r.user_id ≠ fuid := by
        have := (List.mem_filter.1 hr).2
        simpa using this
      rcases hcase with ⟨hcd, ha⟩ | ⟨hcd, _, hf⟩
      · exact Or.inl ⟨r, hmem, hne, by rw [hagree r hmem]; exact hcd, ha⟩
      · refine Or.inr ⟨r, hmem, hne, ?_, hf⟩
        rw [hagree r hmem]
        exact hcd

theorem C2_witness :
    ((isEmail (some "a b@c.d") = contactUsedDirectly (some "a b@c.d")) ↔
      (isEmail (some "a b@c.d") = true ∨ hasAt (some "a b@c.d") = false)) ∧
    ("a@b.com" ∈ resolveRecipientsA lk9 "u1"
        [toLostItemRow lostRow9a, toLostItemRow lostRow9b] ↔
      "a@b.com" ∈ resolveRecipientsB lk9
        ([toLostItemRow lostRow9a, toLostItemRow lostRow9b].filter
          fun r => !(r.user_id == "u1"))) :=
  ⟨C2_variant_agreement.1 (some "a b@c.d"),
   C2_variant_agreement.2 lk9 "u1"
      [toLostItemRow lostRow9a, toLostItemRow lostRow9b]
      (by decide) (by decide) "a@b.com"⟩

/-- C7: a candidate without a valid-shaped contact whose account lookup
fails (error result or thrown) contributes no recipient: dropping the
candidate from the row list leaves either variant's recipient set unchanged,
and replacing every failing lookup outcome by the benign "no email" outcome
leaves either handler's entire behaviour unchanged — so the failure is never
surfaced to the caller and the remaining candidates are still processed. -/
theorem C7_lookup_failure_isolated :
    (∀ lk fuid (l₁ l₂ : List LostItemRow) r a,
      isEmail r.contact_info = false →
      (lk r.user_id = .errResult ∨ lk r.user_id = .thrownErr) →
      (a ∈ resolveRecipientsA lk fuid (l₁ ++ r :: l₂) ↔
        a ∈ resolveRecipientsA lk fuid (l₁ ++ l₂))) ∧
    (∀ lk (l₁ l₂ : List LostItemRow) r a,
      contactUsedDirectly r.contact_info = false →
      (lk r.user_id = .errResult ∨ lk r.user_id = .thrownErr) →
      (a ∈ resolveRecipientsB lk (l₁ ++ r :: l₂) ↔
        a ∈ resolveRecipientsB lk (l₁ ++ l₂))) ∧
    (∀ env req,
      handlerA { env with getUserById := fun u => defuse (env.getUserById u) } req =
        handlerA env req) ∧
    (∀ env req,
      handlerB { env with getUserById := fun u => defuse (env.getUserById u) } req =
        handlerB env req) := by
  refine ⟨?_, ?_, ?_, ?_⟩
  · intro lk fuid l₁ l₂ r a he hfail
    rw [resolveRecipientsA_mem, resolveRecipientsA_mem]
    constructor
    · rintro (⟨x, hx, hne, hxe, ha⟩ | ⟨x, hx, hne, hxe, hf⟩)
      · refine Or.inl ⟨x, ?_, hne, hxe, ha⟩
        rcases List.mem_append.1 hx with h | h
        · exact List.mem_append.2 (Or.inl h)
        · rcases List.mem_cons.1 h with rfl | h
          · rw [he] at hxe
            cases hxe
          · exact List.mem_append.2 (Or.inr h)
      · refine Or.inr ⟨x, ?_, hne, hxe, hf⟩
        rcases List.mem_append.1 hx with h | h
        · exact List.mem_append.2 (Or.inl h)
        · rcases List.mem_cons.1 h with rfl | h
          · rcases hfail with hq | hq <;> rw [hq] at hf <;> cases hf
          · exact List.mem_append.2 (Or.inr h)
    · rintro (⟨x, hx, p⟩ | ⟨x, hx, p⟩)
      · refine Or.inl ⟨x, ?_, p⟩
        rcases List.mem_append.1 hx with h | h
        · exact List.mem_append.2 (Or.inl h)
        · exact List.mem_append.2 (Or.inr (List.mem_cons_of_mem _ h))
      · refine Or.inr ⟨x, ?_, p⟩
        rcases List.mem_append.1 hx with h | h
        · exact List.mem_append.2 (Or.inl h)
        · exact List.mem_append.2 (Or.inr (List.mem_cons_of_mem _ h))
  · intro lk l₁ l₂ r a he hfail
    rw [resolveRecipientsB_mem, resolveRecipientsB_mem]
    constructor
    · rintro ⟨x, hx, p⟩
      refine ⟨x, ?_, p⟩
      rcases List.mem_append.1 hx with h | h
      · exact List.mem_append.2 (Or.inl h)
      · rcases List.mem_cons.1 h with rfl | h
        · rcases p with ⟨hcd, _⟩ | ⟨_, _, hf⟩
          · rw [he] at hcd
            cases hcd
          · rcases hfail with hq | hq <;> rw [hq] at hf <;> cases hf
        · exact List.mem_append.2 (Or.inr h)
    · rintro ⟨x, hx, p⟩
      refine ⟨x, ?_, p⟩
      rcases List.mem_append.1 hx with h | h
      · exact List.mem_append.2 (Or.inl h)
      · exact List.mem_append.2 (Or.inr (List.mem_cons_of_mem _ h))
  · intro env req
    unfold handlerA
    simp only [resolveA_defuse]
  · intro env req
    unfold handlerB
    simp only [resolveBAux_defuse]

theorem C7_witness :
    isEmail (toLostItemRow lostRow9b).contact_info = false ∧
    lkNone (toLostItemRow lostRow9b).user_id = .errResult ∧
    ("a@b.com" ∈ resolveRecipientsA lkNone "u1"
        ([toLostItemRow lostRow9a] ++ toLostItemRow lostRow9b :: []) ↔
      "a@b.com" ∈ resolveRecipientsA lkNone "u1" ([toLostItemRow lostRow9a] ++ [])) ∧
    ("a@b.com" ∈ resolveRecipientsB lkNone
        ([toLostItemRow lostRow9a] ++ toLostItemRow lostRow9b :: []) ↔
      "a@b.com" ∈ resolveRecipientsB lkNone ([toLostItemRow lostRow9a] ++ [])) ∧
    handlerA { env9 with getUserById := fun u => defuse (env9.getUserById u) } reqA9 =
      handlerA env9 reqA9 :=
  ⟨by decide, by decide,
   C7_lookup_failure_isolated.1 lkNone "u1" [toLostItemRow lostRow9a] []
      (toLostItemRow lostRow9b) "a@b.com" (by decide) (Or.inl rfl),
   C7_lookup_failure_isolated.2.1 lkNone [toLostItemRow lostRow9a] []
      (toLostItemRow lostRow9b) "a@b.com" (by decide) (Or.inl rfl),
   C7_lookup_failure_isolated.2.2.1 env9 reqA9⟩

/-- C4 counterexample: two recipients, the second dispatch's `fetch` throws a
transport error.  The identifier-lookup variant records one success and one
failure and still answers 200, but the inline variant's `Promise.all`
rejects, so that request ends in a 500 with no per-recipient summary at all —
refuting the claim that a thrown transport error never prevents the outcomes
from being recorded. -/
theorem C4_counterexample :
    handlerA envThrow reqA9 =
      ⟨⟨500, .internalError⟩, ["a@b.com", "c@d.com"], ["u3"]⟩ ∧
    handlerB envThrow reqB9 =
      ⟨⟨200, .summaryB "Electronics" 2 1 [("c@d.com", "network error")]⟩,
       ["a@b.com", "c@d.com"], ["u3"]⟩ :=
  ⟨rfl, rfl⟩

/-- C4 (amended): per-recipient delivery outcomes are mutually independent
with one exception.  When no dispatch promise rejects, variant A settles one
record per recipient, in order; a single rejected promise instead rejects
variant A's whole `Promise.all`, losing every per-recipient record (all
dispatches are still started).  Variant B records every recipient's outcome
unconditionally — 2xx responses are counted, non-2xx responses and thrown
transport errors each append one failure entry — and still answers 200. -/
theorem C4_independent_dispatch :
    (∀ send toList, (∀ x ∈ toList, isThrownSend (send x) = false) →
      dispatchA send toList = some (toList.map (mkResultA send))) ∧
    (∀ send toList x, x ∈ toList → isThrownSend (send x) = true →
      dispatchA send toList = none) ∧
    (∀ send (toList : List String),
      dispatchB send (0, []) toList =
        ((toList.filter fun x => isOkSend (send x)).length,
         toList.filterMap (failEntryB send))) ∧
    (∀ env fid row, fid ≠ "" →
      truthy env.SUPABASE_URL = true →
      truthy env.SUPABASE_SERVICE_ROLE_KEY = true →
      truthy env.RESEND_API_KEY = true →
      fetchSingle env.db fid = some row →
      env.lostErr = none →
      (handlerB env ⟨"POST", some fid⟩).response.status = 200) := by
  refine ⟨dispatchA_eq_of_no_thrown, dispatchA_eq_none_of_thrown, ?_, ?_⟩
  · intro send toList
    have h := dispatchB_closed send toList (0, [])
    simpa using h
  · intro env fid row hf h1 h2 h3 hrow h4
    simp [handlerB, hf, h1, h2, h3, hrow, h4]

theorem C4_witness :
    dispatchA env9.send ["a@b.com", "c@d.com"] =
      some [("a@b.com", true, none), ("c@d.com", true, none)] ∧
    dispatchA envThrow.send ["a@b.com", "c@d.com"] = none ∧
    dispatchB envThrow.send (0, []) ["a@b.com", "c@d.com"] =
      (1, [("c@d.com", "network error")]) ∧
    (handlerB env9 ⟨"POST", some "f1"⟩).response.status = 200 := by
  refine ⟨?_, ?_, ?_, ?_⟩
  · rw [C4_independent_dispatch.1 env9.send ["a@b.com", "c@d.com"] (by decide)]
    rfl
  · exact C4_independent_dispatch.2.1 envThrow.send ["a@b.com", "c@d.com"]
      "c@d.com" (by decide) (by decide)
  · rw [C4_independent_dispatch.2.2.1 envThrow.send ["a@b.com", "c@d.com"]]
    rfl
  · exact C4_independent_dispatch.2.2.2 env9 "f1" foundRow9 (by decide)
      rfl rfl rfl rfl rfl

end NotifyLostOnFound
